import Mathlib

/-!
Verification of the conversion pipeline in `src/server/python/convert_files.py`
(BioDiversity file-conversion service).  The Python functions are shallowly
embedded: file contents are abstracted to their parse outcomes per format,
machine side effects (output file, extraction directory, the function-local
`import shutil` binding) are threaded as explicit state, and Python
exceptions are an explicit error type.  Trial-decode outcomes are atomic:
a mid-stream parse failure is represented by the error case (the records
streamed before the failure are not modeled).  Floating-point averages are
modeled by exact rationals.
-/

namespace BioEdn

/-! ### Python string helpers (ASCII case folding, as applied to path suffixes) -/

/-- ASCII lower-casing of one character, as `str.lower` acts on the ASCII
suffixes this program compares. -/
def lowerChar (c : Char) : Char :=
  if 65 ≤ c.toNat ∧ c.toNat ≤ 90 then Char.ofNat (c.toNat + 32) else c

/-- `path.lower()` on ASCII paths. -/
def pyLower (s : String) : String :=
  String.mk (s.data.map lowerChar)

/-- `s.endswith(suf)`. -/
def pyEndsWith (s suf : String) : Bool :=
  List.isSuffixOf suf.data s.data

/-! ### Data model -/

/-- A decoded sequence record (BioPython `SeqRecord`): identifier, free-text
description, residue string and the optional `phred_quality` letter
annotation values. -/
structure SeqRecord where
  id : String
  description : String
  seq : String
  phredQuality : Option (List Nat)
deriving DecidableEq, Repr

/-- The record formats this program ever asks `SeqIO.parse` for. -/
inductive SeqFormat
  | fasta | genbank | embl | swiss | fastq
deriving DecidableEq, Repr

/-- Abstract content of one extracted file: the outcome of `SeqIO.parse`
under each format, when the file is opened as plain text (`open`) or through
gzip decompression (`gzip.open`).  `Except.error` stands for any exception
raised while opening/decoding. -/
structure FileContent where
  parsePlain : SeqFormat → Except String (List SeqRecord)
  parseGzip : SeqFormat → Except String (List SeqRecord)

/-- One name from the tar archive: its path, whether `os.path.isfile` holds
(directories are listed too), and its content. -/
structure ExtractedFile where
  path : String
  isFile : Bool
  content : FileContent

/-- The input archive: either a valid container with its member list, or one
whose extraction raises (`tarfile` error). -/
inductive Archive
  | valid (files : List ExtractedFile)
  | corrupt (msg : String)

/-- Python exceptions that can terminate or traverse this program. -/
inductive PyErr
  | extractionError (msg : String)
  | decodeError (msg : String)
  | unboundLocalError (name : String)
  | zeroDivisionError
  | outputNotCreated
deriving DecidableEq, Repr

/-- One line of the output FASTA artifact. -/
inductive OutputLine
  | comment (text : String)
  | fastaHeader (rid rdesc : String)
  | seqData (s : String)
deriving DecidableEq, Repr

/-- Diagnostics relevant to the claims (path strings elided). -/
inductive Diag
  | unknownFormat
  | skippedUnknownType
deriving DecidableEq, Repr

/-! ### extract_tar_gz -/

/-- `extract_tar_gz` (lines 22-31): unpack the archive, returning the member
paths; a `tarfile` failure is logged and re-raised. -/
def extract_tar_gz : Archive → Except PyErr (List ExtractedFile)
  | Archive.valid files => Except.ok files
  | Archive.corrupt msg => Except.error (PyErr.extractionError msg)

/-! ### process_fastq_to_fasta -/

/-- The two local counters of `process_fastq_to_fasta`. -/
structure FastqCounts where
  written : Nat
  filtered : Nat
deriving DecidableEq, Repr

/-- The description written for a quality-filtered record:
`f"avg_qual={avg_quality:.1f} {record.description}"` (decimal formatting of
the float is abstracted to `toString` of the exact rational). -/
def avgQualDesc (avg : ℚ) (d : String) : String :=
  "avg_qual=" ++ toString avg ++ " " ++ d

/-- `SeqIO.write(record, handle, "fasta")`: one header line and the residue
lines (line wrapping is irrelevant to every claim and elided). -/
def fastaWrite (r : SeqRecord) : List OutputLine :=
  [OutputLine.fastaHeader r.id r.description, OutputLine.seqData r.seq]

/-- The body of the per-record loop of `process_fastq_to_fasta`
(lines 47-71): average the phred qualities and keep the record iff the
average reaches the threshold; records without quality data are always
written.  `sum(..)/len(..)` on an empty quality list raises
`ZeroDivisionError`. -/
def fastqStep (qualityThreshold : ℚ) (acc : List OutputLine × FastqCounts)
    (r : SeqRecord) : Except PyErr (List OutputLine × FastqCounts) :=
  match r.phredQuality with
  | some quals =>
    if quals.length = 0 then
      Except.error PyErr.zeroDivisionError
    else
      let avg : ℚ := (quals.sum : ℚ) / (quals.length : ℚ)
      if qualityThreshold ≤ avg then
        Except.ok (acc.1 ++ fastaWrite { r with description := avgQualDesc avg r.description },
          { acc.2 with written := acc.2.written + 1 })
      else
        Except.ok (acc.1, { acc.2 with filtered := acc.2.filtered + 1 })
  | none =>
    Except.ok (acc.1 ++ fastaWrite r, { acc.2 with written := acc.2.written + 1 })

/-- The handle `process_fastq_to_fasta` reads through: `gzip.open` iff the
original-case path ends in `.gz` (line 40), else plain `open`. -/
def fastqView (f : ExtractedFile) : SeqFormat → Except String (List SeqRecord) :=
  if pyEndsWith f.path ".gz" then f.content.parseGzip else f.content.parsePlain

/-- `process_fastq_to_fasta` (lines 33-78).  The Python signature defaults
`quality_threshold` to 20; callers that omit it pass 20 here.  Any exception
is logged and re-raised, so decode failures propagate to the caller. -/
def process_fastq_to_fasta (f : ExtractedFile) (out : List OutputLine)
    (qualityThreshold : ℚ) : Except PyErr (List OutputLine × FastqCounts) :=
  match fastqView f SeqFormat.fastq with
  | Except.error msg => Except.error (PyErr.decodeError msg)
  | Except.ok records => records.foldlM (fastqStep qualityThreshold) (out, ⟨0, 0⟩)

/-! ### process_generic_sequences -/

/-- `formats_to_try` (line 86). -/
def formats_to_try : List SeqFormat :=
  [SeqFormat.fasta, SeqFormat.genbank, SeqFormat.embl, SeqFormat.swiss]

/-- The `for fmt in formats_to_try` loop (lines 88-101): a candidate whose
parse raises is skipped (`except: continue`), a candidate parsing to zero
records does not break, the first candidate with a non-empty record list has
all its records written and the loop breaks. -/
def genericLoop (c : FileContent) (out : List OutputLine) :
    List SeqFormat → List OutputLine × Nat
  | [] => (out, 0)
  | fmt :: rest =>
    match c.parsePlain fmt with
    | Except.error _ => genericLoop c out rest
    | Except.ok sequences =>
      if sequences.isEmpty then genericLoop c out rest
      else (sequences.foldl (fun o r => o ++ fastaWrite r) out, sequences.length)

/-- `process_generic_sequences` (lines 80-110): run the trial loop over the
plain-text view; when nothing was written, warn about an unknown format.
The outer handler can only re-raise exceptions of the code after the loop
(logging), so the function always returns normally. -/
def process_generic_sequences (f : ExtractedFile) (out : List OutputLine) :
    Except PyErr (List OutputLine × Nat × List Diag) :=
  let res := genericLoop f.content out formats_to_try
  if res.2 = 0 then Except.ok (res.1, res.2, [Diag.unknownFormat])
  else Except.ok (res.1, res.2, [])

/-! ### convert_tar_to_fasta -/

/-- The entry categories induced by the suffix dispatch of the
`for file_path in extracted_files` loop (lines 132-164). -/
inductive Category
  | fastqReads | fastaSeq | genbankRec | textFile | unknown
deriving DecidableEq, Repr

/-- `file_lower.endswith(('.fastq', '.fastq.gz', '.fq', '.fq.gz'))` (line 136). -/
def isFastqSuffix (s : String) : Bool :=
  pyEndsWith s ".fastq" || pyEndsWith s ".fastq.gz" || pyEndsWith s ".fq" || pyEndsWith s ".fq.gz"

/-- `file_lower.endswith(('.fasta', '.fasta.gz', '.fa', '.fa.gz', '.fas'))` (line 140). -/
def isFastaSuffix (s : String) : Bool :=
  pyEndsWith s ".fasta" || pyEndsWith s ".fasta.gz" || pyEndsWith s ".fa" ||
    pyEndsWith s ".fa.gz" || pyEndsWith s ".fas"

/-- `file_lower.endswith(('.gb', '.gbk', '.genbank'))` (line 155). -/
def isGenbankSuffix (s : String) : Bool :=
  pyEndsWith s ".gb" || pyEndsWith s ".gbk" || pyEndsWith s ".genbank"

/-- The suffix dispatch chain: `file_lower = file_path.lower()` then the
`endswith` tests in source order (lines 134-164). -/
def classify (path : String) : Category :=
  let file_lower := pyLower path
  if isFastqSuffix file_lower then Category.fastqReads
  else if isFastaSuffix file_lower then Category.fastaSeq
  else if isGenbankSuffix file_lower then Category.genbankRec
  else if pyEndsWith file_lower ".txt" then Category.textFile
  else Category.unknown

/-- The machine state threaded through `convert_tar_to_fasta`: the output
file (`none` = not created), whether the extraction directory exists,
whether the function-local `import shutil` statement (line 167) has
executed, the local `total_sequences` counter, and emitted diagnostics. -/
structure BodyState where
  output : Option (List OutputLine)
  extractDirExists : Bool
  shutilImported : Bool
  totalSequences : Nat
  diags : List Diag
deriving DecidableEq, Repr

/-- One iteration of the per-entry loop (lines 132-164): non-files are
skipped, then the suffix dispatch selects the processing.  The FASTA branch
chooses `gzip.open` by `file_path.endswith('.gz')` on the original-case
path (line 142) and its parse errors are not caught; the FASTQ branch's
exceptions propagate out of `process_fastq_to_fasta`; the generic branches
never raise; unknown suffixes are skipped with a log line. -/
def processEntry (f : ExtractedFile) (st : BodyState) :
    Except PyErr Unit × BodyState :=
  if f.isFile then
    match classify f.path with
    | Category.fastqReads =>
      match process_fastq_to_fasta f (st.output.getD []) 20 with
      | Except.error e => (Except.error e, st)
      | Except.ok (out2, _counts) => (Except.ok (), { st with output := some out2 })
    | Category.fastaSeq =>
      let parsed := if pyEndsWith f.path ".gz" then f.content.parseGzip SeqFormat.fasta
                    else f.content.parsePlain SeqFormat.fasta
      match parsed with
      | Except.error msg => (Except.error (PyErr.decodeError msg), st)
      | Except.ok records =>
        (Except.ok (), { st with
          output := some (records.foldl (fun o r => o ++ fastaWrite r) (st.output.getD [])),
          totalSequences := st.totalSequences + records.length })
    | Category.genbankRec =>
      match process_generic_sequences f (st.output.getD []) with
      | Except.error e => (Except.error e, st)
      | Except.ok (out2, _w, ds) =>
        (Except.ok (), { st with output := some out2, diags := st.diags ++ ds })
    | Category.textFile =>
      match process_generic_sequences f (st.output.getD []) with
      | Except.error e => (Except.error e, st)
      | Except.ok (out2, _w, ds) =>
        (Except.ok (), { st with output := some out2, diags := st.diags ++ ds })
    | Category.unknown =>
      (Except.ok (), { st with diags := st.diags ++ [Diag.skippedUnknownType] })
  else (Except.ok (), st)

/-- The whole per-entry loop: an exception from one entry aborts the loop
(there is no per-entry handler in the source). -/
def processEntries : List ExtractedFile → BodyState → Except PyErr Unit × BodyState
  | [], st => (Except.ok (), st)
  | f :: rest, st =>
    match processEntry f st with
    | (Except.error e, st2) => (Except.error e, st2)
    | (Except.ok _, st2) => processEntries rest st2

/-- The two comment lines written when the output file is initialized
(lines 125-127); the timestamp comes from the system clock. -/
def headerLines (inputName timestamp : String) : List OutputLine :=
  [OutputLine.comment ("Converted from " ++ inputName),
   OutputLine.comment ("Conversion timestamp: " ++ timestamp)]

/-- Number of `'>'` lines in the output, the consistency count of
lines 176-179. -/
def recordCount (out : List OutputLine) : Nat :=
  (out.filter fun l => match l with
    | OutputLine.fastaHeader _ _ => true
    | _ => false).length

/-- The `try` block of `convert_tar_to_fasta` (lines 114-182) in source
order: create the extraction directory, extract (failures propagate),
truncate the output file and write the header comments, process every
entry, then `import shutil`, remove the extraction directory and verify
the output.  The returned state is the state at normal return or at the
point the exception was raised. -/
def convertBody (archive : Archive) (inputName timestamp : String)
    (out0 : Option (List OutputLine)) :
    Except PyErr Unit × BodyState × Option Nat :=
  let st0 : BodyState :=
    { output := out0, extractDirExists := true, shutilImported := false,
      totalSequences := 0, diags := [] }
  match extract_tar_gz archive with
  | Except.error e => (Except.error e, st0, none)
  | Except.ok extracted_files =>
    let st1 := { st0 with output := some (headerLines inputName timestamp) }
    match processEntries extracted_files st1 with
    | (Except.error e, st2) => (Except.error e, st2, none)
    | (Except.ok _, st2) =>
      let st3 := { st2 with shutilImported := true, extractDirExists := false }
      match st3.output with
      | some lines => (Except.ok (), st3, some (recordCount lines))
      | none => (Except.error PyErr.outputNotCreated, st3, none)

/-- The observable outcome of one `convert_tar_to_fasta` call. -/
structure ConvOutcome where
  result : Except PyErr Unit
  output : Option (List OutputLine)
  extractDirExists : Bool
  totalSequences : Nat
  seqCount : Option Nat
  diags : List Diag

/-- `convert_tar_to_fasta` (lines 112-189): the `try` body plus the
`except` handler (lines 184-189).  The handler re-raises after attempting
`shutil.rmtree(extract_dir)`; because `import shutil` (line 167) binds
`shutil` as a function-local name, looking it up before that line has run
raises `UnboundLocalError` instead, leaving the directory in place. -/
def convert_tar_to_fasta (archive : Archive) (inputName timestamp : String)
    (out0 : Option (List OutputLine)) : ConvOutcome :=
  match convertBody archive inputName timestamp out0 with
  | (Except.ok _, st, sc) =>
    { result := Except.ok (), output := st.output,
      extractDirExists := st.extractDirExists,
      totalSequences := st.totalSequences, seqCount := sc, diags := st.diags }
  | (Except.error e, st, sc) =>
    if st.extractDirExists then
      if st.shutilImported then
        { result := Except.error e, output := st.output, extractDirExists := false,
          totalSequences := st.totalSequences, seqCount := sc, diags := st.diags }
      else
        { result := Except.error (PyErr.unboundLocalError "shutil"),
          output := st.output, extractDirExists := true,
          totalSequences := st.totalSequences, seqCount := sc, diags := st.diags }
    else
      { result := Except.error e, output := st.output, extractDirExists := false,
        totalSequences := st.totalSequences, seqCount := sc, diags := st.diags }

set_option linter.unusedVariables false in
/-- `main` (lines 201-235): the parsed `--quality-threshold` option (default
20) is never forwarded — `convert_tar_to_fasta` is called with the input and
output paths only (line 229), so the binder is unused exactly as
`args.quality_threshold` is. -/
def main_run (qualityThreshold : ℚ) (archive : Archive)
    (inputName timestamp : String) (out0 : Option (List OutputLine)) : ConvOutcome :=
  convert_tar_to_fasta archive inputName timestamp out0

/-! ### Concrete inputs used by counterexamples and witnesses -/

/-- A record with a single quality value `q`, so its average quality is `q`. -/
def mkQRecord (name : String) (q : Nat) : SeqRecord :=
  { id := name, description := name, seq := "ACGT", phredQuality := some [q] }

/-- Content that fails to decode under every format and either view. -/
def badContent : FileContent :=
  { parsePlain := fun _ => Except.error "bad record data",
    parseGzip := fun _ => Except.error "bad record data" }

/-- Plain-text FASTQ content holding one high-quality record. -/
def goodFastqContent : FileContent :=
  { parsePlain := fun fmt =>
      match fmt with
      | SeqFormat.fastq => Except.ok [mkQRecord "r1" 30]
      | _ => Except.error "not this format",
    parseGzip := fun _ => Except.error "not gzipped" }

/-- Plain-text FASTQ content holding one record of average quality 25. -/
def fastq25Content : FileContent :=
  { parsePlain := fun fmt =>
      match fmt with
      | SeqFormat.fastq => Except.ok [mkQRecord "r25" 25]
      | _ => Except.error "not this format",
    parseGzip := fun _ => Except.error "not gzipped" }

/-- Gzip-compressed FASTA content: one record through the gzip view, a
decode failure when read as plain text. -/
def gzFastaContent : FileContent :=
  { parsePlain := fun _ => Except.error "binary gzip data",
    parseGzip := fun fmt =>
      match fmt with
      | SeqFormat.fasta =>
        Except.ok [{ id := "s1", description := "s1", seq := "ACGT", phredQuality := none }]
      | _ => Except.error "not this format" }

/-- Ten FASTQ records: six of average quality at least 20, four below. -/
def tenRecords : List SeqRecord :=
  [mkQRecord "q1" 30, mkQRecord "q2" 25, mkQRecord "q3" 20, mkQRecord "q4" 21,
   mkQRecord "q5" 40, mkQRecord "q6" 22, mkQRecord "q7" 10, mkQRecord "q8" 19,
   mkQRecord "q9" 5, mkQRecord "q10" 0]

/-- Plain-text FASTQ content holding `tenRecords`. -/
def fastqTenContent : FileContent :=
  { parsePlain := fun fmt =>
      match fmt with
      | SeqFormat.fastq => Except.ok tenRecords
      | _ => Except.error "not this format",
    parseGzip := fun _ => Except.error "not gzipped" }

/-- Content on which the fasta trial fails, the genbank trial yields one
record, and the later embl trial would yield two records. -/
def genbank2Content : FileContent :=
  { parsePlain := fun fmt =>
      match fmt with
      | SeqFormat.fasta => Except.error "not fasta"
      | SeqFormat.genbank => Except.ok [⟨"g1", "g1", "ACGT", none⟩]
      | SeqFormat.embl => Except.ok [⟨"e1", "e1", "AC", none⟩, ⟨"e2", "e2", "GT", none⟩]
      | _ => Except.error "not this format",
    parseGzip := fun _ => Except.error "not gzipped" }

/-- One corrupt reads-with-quality entry followed by one valid one. -/
def archiveC1 : Archive :=
  Archive.valid [⟨"bad.fastq", true, badContent⟩, ⟨"good.fastq", true, goodFastqContent⟩]

/-- One reads-with-quality entry with a single mean-25 record. -/
def archiveC3 : Archive :=
  Archive.valid [⟨"reads.fastq", true, fastq25Content⟩]

/-- One reads-with-quality entry with the ten-record content. -/
def archiveC9 : Archive :=
  Archive.valid [⟨"reads.fastq", true, fastqTenContent⟩]

/-! ### Helper lemmas -/

/-- A trial parse that raises or yields zero records. -/
def trialYieldsNothing (c : FileContent) (fmt : SeqFormat) : Prop :=
  (∃ m, c.parsePlain fmt = Except.error m) ∨ c.parsePlain fmt = Except.ok []

theorem genericLoop_skip (c : FileContent) (out : List OutputLine) (fmt : SeqFormat)
    (rest : List SeqFormat) (h : trialYieldsNothing c fmt) :
    genericLoop c out (fmt :: rest) = genericLoop c out rest := by
  rcases h with ⟨m, hm⟩ | hm <;> simp [genericLoop, hm]

theorem genericLoop_all_skip (c : FileContent) (out : List OutputLine) :
    ∀ l1 l2, (∀ g ∈ l1, trialYieldsNothing c g) →
      genericLoop c out (l1 ++ l2) = genericLoop c out l2
  | [], _, _ => rfl
  | fmt :: l1, l2, h => by
    rw [List.cons_append, genericLoop_skip c out fmt _ (h fmt (List.mem_cons_self _ _)),
      genericLoop_all_skip c out l1 l2 (fun g hg => h g (List.mem_cons_of_mem _ hg))]

theorem genericLoop_hit (c : FileContent) (out : List OutputLine) (fmt : SeqFormat)
    (rest : List SeqFormat) (rs : List SeqRecord)
    (h : c.parsePlain fmt = Except.ok rs) (hne : rs ≠ []) :
    genericLoop c out (fmt :: rest)
      = (rs.foldl (fun o r => o ++ fastaWrite r) out, rs.length) := by
  cases rs with
  | nil => exact absurd rfl hne
  | cons a l => simp [genericLoop, h]

/-- First-success-wins characterization of the trial loop. -/
theorem prober_first_hit (f : ExtractedFile) (out : List OutputLine)
    (l1 l2 : List SeqFormat) (fmt : SeqFormat) (rs : List SeqRecord)
    (hsplit : formats_to_try = l1 ++ fmt :: l2)
    (hskip : ∀ g ∈ l1, trialYieldsNothing f.content g)
    (hok : f.content.parsePlain fmt = Except.ok rs) (hne : rs ≠ []) :
    process_generic_sequences f out
      = Except.ok (rs.foldl (fun o r => o ++ fastaWrite r) out, rs.length, []) := by
  have hloop : genericLoop f.content out formats_to_try
      = (rs.foldl (fun o r => o ++ fastaWrite r) out, rs.length) := by
    rw [hsplit, genericLoop_all_skip f.content out l1 (fmt :: l2) hskip,
      genericLoop_hit f.content out fmt l2 rs hok hne]
  have hlen : rs.length ≠ 0 := fun h => hne (List.length_eq_zero.mp h)
  simp [process_generic_sequences, hloop, hlen]

/-- When every candidate yields nothing the prober returns normally with a
diagnostic and zero records written. -/
theorem prober_all_skip (f : ExtractedFile) (out : List OutputLine)
    (hall : ∀ g ∈ formats_to_try, trialYieldsNothing f.content g) :
    process_generic_sequences f out = Except.ok (out, 0, [Diag.unknownFormat]) := by
  have hloop : genericLoop f.content out formats_to_try = (out, 0) := by
    have h := genericLoop_all_skip f.content out formats_to_try [] hall
    simpa [genericLoop] using h
  simp [process_generic_sequences, hloop]

theorem fastqStep_output (t : ℚ) (o : List OutputLine) (c : FastqCounts) (r : SeqRecord)
    (o' : List OutputLine) (c' : FastqCounts)
    (h : fastqStep t (o, c) r = Except.ok (o', c')) : ∃ u, o' = o ++ u := by
  simp only [fastqStep] at h
  split at h
  · split at h
    · cases h
    · split at h
      · injection h with h1
        injection h1 with ho hc
        exact ⟨_, ho.symm⟩
      · injection h with h1
        injection h1 with ho hc
        exact ⟨[], by simpa using ho.symm⟩
  · injection h with h1
    injection h1 with ho hc
    exact ⟨_, ho.symm⟩

theorem fastqFold_output (t : ℚ) (rs : List SeqRecord) :
    ∀ o c o' c', rs.foldlM (fastqStep t) (o, c) = Except.ok (o', c') →
      ∃ u, o' = o ++ u := by
  induction rs with
  | nil =>
    intro o c o' c' h
    simp only [List.foldlM_nil] at h
    injection h with h1
    injection h1 with ho hc
    exact ⟨[], by simpa using ho.symm⟩
  | cons r rest ih =>
    intro o c o' c' h
    simp only [List.foldlM_cons] at h
    cases hstep : fastqStep t (o, c) r with
    | error e => rw [hstep] at h; cases h
    | ok p =>
      rw [hstep] at h
      obtain ⟨u1, hu1⟩ := fastqStep_output t o c r p.1 p.2 (by rw [hstep])
      obtain ⟨u2, hu2⟩ := ih p.1 p.2 o' c' (by simpa [Except.bind] using h)
      exact ⟨u1 ++ u2, by rw [hu2, hu1, List.append_assoc]⟩

theorem writeFold_output (rs : List SeqRecord) :
    ∀ o : List OutputLine, ∃ u, rs.foldl (fun acc r => acc ++ fastaWrite r) o = o ++ u := by
  induction rs with
  | nil => intro o; exact ⟨[], by simp⟩
  | cons r rest ih =>
    intro o
    obtain ⟨u, hu⟩ := ih (o ++ fastaWrite r)
    exact ⟨fastaWrite r ++ u, by simp [hu]⟩

theorem genericLoop_output (c : FileContent) :
    ∀ (fmts : List SeqFormat) (o : List OutputLine), ∃ u, (genericLoop c o fmts).1 = o ++ u := by
  intro fmts
  induction fmts with
  | nil => intro o; exact ⟨[], by simp [genericLoop]⟩
  | cons fmt rest ih =>
    intro o
    unfold genericLoop
    cases hp : c.parsePlain fmt with
    | error m => exact ih o
    | ok seqs =>
      by_cases hs : seqs.isEmpty
      · simpa [hs] using ih o
      · simpa [hs] using writeFold_output seqs o

theorem processEntry_output (f : ExtractedFile) (st : BodyState) (l : List OutputLine)
    (h : st.output = some l) :
    ∃ u, (processEntry f st).2.output = some (l ++ u) := by
  unfold processEntry
  simp only [h, Option.getD_some]
  by_cases hf : f.isFile
  case neg => simp only [hf, Bool.false_eq_true, if_false]; exact ⟨[], by simp [h]⟩
  simp only [hf, if_true]
  cases hcls : classify f.path with
  | fastqReads =>
    unfold process_fastq_to_fasta
    cases hv : fastqView f SeqFormat.fastq with
    | error m => exact ⟨[], by simp [h]⟩
    | ok records =>
      cases hfold : records.foldlM (fastqStep 20) (l, (⟨0, 0⟩ : FastqCounts)) with
      | error e => exact ⟨[], by simp [hfold, h]⟩
      | ok p =>
        obtain ⟨u, hu⟩ := fastqFold_output 20 records l ⟨0, 0⟩ p.1 p.2 (by rw [hfold])
        exact ⟨u, by simp [hfold, hu]⟩
  | fastaSeq =>
    cases hp : (if pyEndsWith f.path ".gz" then f.content.parseGzip SeqFormat.fasta
        else f.content.parsePlain SeqFormat.fasta) with
    | error m => exact ⟨[], by simp [hp, h]⟩
    | ok records =>
      obtain ⟨u, hu⟩ := writeFold_output records l
      exact ⟨u, by simp [hp, hu]⟩
  | genbankRec =>
    unfold process_generic_sequences
    obtain ⟨u, hu⟩ := genericLoop_output f.content formats_to_try l
    by_cases hz : (genericLoop f.content l formats_to_try).2 = 0
    · exact ⟨u, by simp [hz, hu]⟩
    · exact ⟨u, by simp [hz, hu]⟩
  | textFile =>
    unfold process_generic_sequences
    obtain ⟨u, hu⟩ := genericLoop_output f.content formats_to_try l
    by_cases hz : (genericLoop f.content l formats_to_try).2 = 0
    · exact ⟨u, by simp [hz, hu]⟩
    · exact ⟨u, by simp [hz, hu]⟩
  | unknown => exact ⟨[], by simp [h]⟩

theorem processEntries_output (files : List ExtractedFile) :
    ∀ (st : BodyState) (l : List OutputLine), st.output = some l →
      ∃ u, (processEntries files st).2.output = some (l ++ u) := by
  induction files with
  | nil => intro st l h; exact ⟨[], by simpa [processEntries] using h⟩
  | cons f rest ih =>
    intro st l h
    unfold processEntries
    obtain ⟨u1, hu1⟩ := processEntry_output f st l h
    cases hpe : processEntry f st with
    | mk res st2 =>
      rw [hpe] at hu1
      cases res with
      | error e => exact ⟨u1, hu1⟩
      | ok _ =>
        obtain ⟨u2, hu2⟩ := ih st2 (l ++ u1) hu1
        exact ⟨u1 ++ u2, by rw [hu2, List.append_assoc]⟩

/-- On a valid archive the final output-file state is whatever the entry
loop left behind (the verification step and the handler never write). -/
theorem convert_valid_output (files : List ExtractedFile) (inputName timestamp : String)
    (out0 : Option (List OutputLine)) :
    (convert_tar_to_fasta (Archive.valid files) inputName timestamp out0).output
      = (processEntries files
          { output := some (headerLines inputName timestamp), extractDirExists := true,
            shutilImported := false, totalSequences := 0, diags := [] }).2.output := by
  unfold convert_tar_to_fasta convertBody extract_tar_gz
  rcases hpe : processEntries files
      { output := some (headerLines inputName timestamp), extractDirExists := true,
        shutilImported := false, totalSequences := 0, diags := [] } with ⟨res, st2⟩
  cases res with
  | error e => by_cases hd : st2.extractDirExists <;> by_cases hs : st2.shutilImported <;>
      simp [hpe, hd, hs]
  | ok _ =>
    cases ho : st2.output with
    | none => simp [hpe, ho]
    | some lines => simp [hpe, ho]

theorem lowerChar_idem (c : Char) : lowerChar (lowerChar c) = lowerChar c := by
  unfold lowerChar
  by_cases h : 65 ≤ c.toNat ∧ c.toNat ≤ 90
  · rw [if_pos h]
    obtain ⟨h1, h2⟩ := h
    have hn : c.toNat ≤ 90 := h2
    rw [if_neg]
    intro hcontra
    obtain ⟨ha, hb⟩ := hcontra
    set n := c.toNat with hdef
    interval_cases n <;> revert ha hb <;> decide
  · rw [if_neg h, if_neg h]

theorem pyLower_idem (s : String) : pyLower (pyLower s) = pyLower s := by
  have hmap : ∀ l : List Char, (l.map lowerChar).map lowerChar = l.map lowerChar := by
    intro l
    induction l with
    | nil => rfl
    | cons a l ih => simp [lowerChar_idem, ih]
  unfold pyLower
  exact congrArg String.mk (hmap s.data)

theorem classify_lower (p : String) : classify (pyLower p) = classify p := by
  unfold classify
  rw [pyLower_idem]

theorem process_fastq_congr (p q : String) (b : Bool) (c : FileContent)
    (out : List OutputLine) (t : ℚ)
    (hgz : pyEndsWith p ".gz" = pyEndsWith q ".gz") :
    process_fastq_to_fasta ⟨p, b, c⟩ out t = process_fastq_to_fasta ⟨q, b, c⟩ out t := by
  unfold process_fastq_to_fasta fastqView
  simp only
  rw [hgz]

/-! ### Claims -/

/-- C1, counterexample: an archive holding one entry whose content fails to
decode under its assigned reads-with-quality category and one valid entry
whose record passes the filter does NOT end in Done — the decode error
propagates out of the entry loop and the run terminates with an error
(an `UnboundLocalError` raised by the cleanup handler), so the claimed
partial-failure tolerance fails on the code. -/
theorem C1_counterexample :
    (convert_tar_to_fasta archiveC1 "in.tar.gz" "ts" none).result
      = Except.error (PyErr.unboundLocalError "shutil") := by
  with_unfolding_all rfl

/-- C1, amended: a decode error on a reads-with-quality entry is not caught
per entry — it aborts the entry loop and the run terminates with an error
(the cleanup handler itself raising `UnboundLocalError`), not Done, and no
error counter exists; whatever valid entries follow are never processed. -/
theorem C1_amended (f : ExtractedFile) (rest : List ExtractedFile)
    (inputName timestamp : String) (out0 : Option (List OutputLine)) (msg : String)
    (hfile : f.isFile = true)
    (hcat : classify f.path = Category.fastqReads)
    (hparse : fastqView f SeqFormat.fastq = Except.error msg) :
    (convert_tar_to_fasta (Archive.valid (f :: rest)) inputName timestamp out0).result
      = Except.error (PyErr.unboundLocalError "shutil") := by
  have hpf : process_fastq_to_fasta f (headerLines inputName timestamp) 20
      = Except.error (PyErr.decodeError msg) := by
    unfold process_fastq_to_fasta
    rw [hparse]
  simp [convert_tar_to_fasta, convertBody, extract_tar_gz, processEntries, processEntry,
    hfile, hcat, hpf]

/-- Witness for C1_amended: a concrete archive with a corrupt `.fq` entry
followed by a valid one. -/
theorem C1_amended_witness :
    (convert_tar_to_fasta
        (Archive.valid [⟨"corrupt.fq", true, badContent⟩,
          ⟨"fine.fastq", true, goodFastqContent⟩]) "a.tar.gz" "t" none).result
      = Except.error (PyErr.unboundLocalError "shutil") :=
  C1_amended ⟨"corrupt.fq", true, badContent⟩ [⟨"fine.fastq", true, goodFastqContent⟩]
    "a.tar.gz" "t" none "bad record data" rfl (by rfl) rfl

/-- C2: the claim that every run ends in Done or in a Failed carrying a
taxonomized cause fails on the code — on an archive whose extraction
raises, the `except` handler's `shutil.rmtree` call looks up the
function-local name `shutil` before `import shutil` (line 167) has run,
so the run terminates with `UnboundLocalError`, outside the
ExtractionError/DecodeError/WriteError taxonomy. -/
theorem C2_code_bug :
    (convert_tar_to_fasta (Archive.corrupt "not a gzip file") "in.tar.gz" "ts" none).result
      = Except.error (PyErr.unboundLocalError "shutil") := by
  with_unfolding_all rfl

/-- C3: the configured `--quality-threshold` is never used — `main` does not
forward it, so a run invoked with threshold 30 still writes a record of
average quality 25 (the built-in default 20 applies), although the filter
at threshold 30 would reject that record. -/
theorem C3_code_bug :
    (main_run 30 archiveC3 "in.tar.gz" "ts" none).result = Except.ok ()
    ∧ recordCount ((main_run 30 archiveC3 "in.tar.gz" "ts" none).output.getD []) = 1
    ∧ process_fastq_to_fasta ⟨"reads.fastq", true, fastq25Content⟩ [] 30
        = Except.ok ([], ⟨0, 1⟩) := by
  refine ⟨?_, ?_, ?_⟩ <;> with_unfolding_all rfl

/-- C4: the filter accepts a quality-bearing record iff the arithmetic mean
of its scores is at least the threshold (inclusive boundary), accepts every
record without quality scores, and at threshold 0 accepts every
quality-bearing record (stated for records with at least one score; on an
empty score list the source's `sum(..)/len(..)` raises
`ZeroDivisionError`). -/
theorem C4_filter (t : ℚ) (out : List OutputLine) (c : FastqCounts) (r : SeqRecord) :
    (∀ qs, r.phredQuality = some qs → qs ≠ [] →
      ((t ≤ (qs.sum : ℚ) / (qs.length : ℚ) →
        fastqStep t (out, c) r = Except.ok
          (out ++ fastaWrite { r with description := avgQualDesc ((qs.sum : ℚ) / (qs.length : ℚ)) r.description },
            { c with written := c.written + 1 }))
      ∧ ((qs.sum : ℚ) / (qs.length : ℚ) < t →
        fastqStep t (out, c) r = Except.ok (out, { c with filtered := c.filtered + 1 }))))
    ∧ (r.phredQuality = none →
      fastqStep t (out, c) r
        = Except.ok (out ++ fastaWrite r, { c with written := c.written + 1 }))
    ∧ (∀ qs, r.phredQuality = some qs → qs ≠ [] → t = 0 →
      fastqStep t (out, c) r = Except.ok
        (out ++ fastaWrite { r with description := avgQualDesc ((qs.sum : ℚ) / (qs.length : ℚ)) r.description },
          { c with written := c.written + 1 })) := by
  have hmain : ∀ qs, r.phredQuality = some qs → qs ≠ [] →
      (t ≤ (qs.sum : ℚ) / (qs.length : ℚ) →
        fastqStep t (out, c) r = Except.ok
          (out ++ fastaWrite { r with description := avgQualDesc ((qs.sum : ℚ) / (qs.length : ℚ)) r.description },
            { c with written := c.written + 1 }))
      ∧ ((qs.sum : ℚ) / (qs.length : ℚ) < t →
        fastqStep t (out, c) r = Except.ok (out, { c with filtered := c.filtered + 1 })) := by
    intro qs hq hne
    have hlen : qs.length ≠ 0 := fun hz => hne (List.length_eq_zero.mp hz)
    constructor
    · intro hle
      simp only [fastqStep, hq]
      rw [if_neg hlen, if_pos hle]
    · intro hlt
      simp only [fastqStep, hq]
      rw [if_neg hlen, if_neg (not_le.mpr hlt)]
  refine ⟨hmain, fun hq => by simp [fastqStep, hq], fun qs hq hne ht => ?_⟩
  have hnonneg : (0 : ℚ) ≤ (qs.sum : ℚ) / (qs.length : ℚ) :=
    div_nonneg (Nat.cast_nonneg _) (Nat.cast_nonneg _)
  exact (hmain qs hq hne).1 (ht ▸ hnonneg)

/-- Witness for C4_filter: at the inclusive boundary (threshold 20, average
quality exactly 20) the record is written, and a no-quality record is
written unconditionally. -/
theorem C4_filter_witness :
    fastqStep 20 ([], ⟨0, 0⟩) (mkQRecord "bnd" 20)
      = Except.ok (fastaWrite { mkQRecord "bnd" 20 with
          description := avgQualDesc 20 "bnd" }, ⟨1, 0⟩) := by
  have h := ((C4_filter 20 [] ⟨0, 0⟩ (mkQRecord "bnd" 20)).1 [20] rfl
    (by simp)).1 (by simp)
  simpa [mkQRecord] using h

/-- C5: the fallback prober tries the fixed list fasta, genbank, embl,
swiss in order and commits to the first candidate whose parse yields at
least one record — later candidates never affect the result, whatever they
would yield — and when every candidate yields nothing the entry is reported
as unknown format (a diagnostic, zero records, no exception). -/
theorem C5_prober (f : ExtractedFile) (out : List OutputLine) :
    (∀ (l1 l2 : List SeqFormat) (fmt : SeqFormat) (rs : List SeqRecord),
      formats_to_try = l1 ++ fmt :: l2 →
      (∀ g ∈ l1, trialYieldsNothing f.content g) →
      f.content.parsePlain fmt = Except.ok rs → rs ≠ [] →
      process_generic_sequences f out
        = Except.ok (rs.foldl (fun o r => o ++ fastaWrite r) out, rs.length, []))
    ∧ ((∀ g ∈ formats_to_try, trialYieldsNothing f.content g) →
      process_generic_sequences f out = Except.ok (out, 0, [Diag.unknownFormat])) :=
  ⟨fun l1 l2 fmt rs hsplit hskip hok hne =>
      prober_first_hit f out l1 l2 fmt rs hsplit hskip hok hne,
    fun hall => prober_all_skip f out hall⟩

/-- Witness for C5_prober: fasta fails, genbank yields one record and wins,
although the later embl candidate would yield two records; and on
all-failing content the prober reports unknown format. -/
theorem C5_prober_witness :
    process_generic_sequences ⟨"entry.gb", true, genbank2Content⟩ []
      = Except.ok ([OutputLine.fastaHeader "g1" "g1", OutputLine.seqData "ACGT"], 1, []) := by
  have h := (C5_prober ⟨"entry.gb", true, genbank2Content⟩ []).1 [SeqFormat.fasta]
    [SeqFormat.embl, SeqFormat.swiss] SeqFormat.genbank [⟨"g1", "g1", "ACGT", none⟩]
    rfl ?hskip rfl (by simp)
  case hskip =>
    intro g hg
    simp only [List.mem_singleton] at hg
    subst hg
    exact Or.inl ⟨"not fasta", rfl⟩
  simpa [fastaWrite] using h

/-- C6: the claim that the extraction directory is removed on every exit
path fails on the code — when extraction raises, the handler's
`shutil.rmtree` crashes on the unbound local `shutil` before removing
anything, so the run propagates `UnboundLocalError` with the directory
still in place. -/
theorem C6_code_bug :
    (convert_tar_to_fasta (Archive.corrupt "unreadable archive") "in.tar.gz" "ts"
        none).extractDirExists = true
    ∧ (convert_tar_to_fasta (Archive.corrupt "unreadable archive") "in.tar.gz" "ts"
        none).result = Except.error (PyErr.unboundLocalError "shutil") := by
  refine ⟨?_, ?_⟩ <;> with_unfolding_all rfl

/-- C7, counterexample: when extraction fails, the output artifact has NOT
been created — starting from no output file, a run on a corrupt archive
leaves the output file nonexistent, refuting the claim that the header is
written before extraction is invoked. -/
theorem C7_counterexample :
    (convert_tar_to_fasta (Archive.corrupt "bad header") "in.tar.gz" "ts" none).output
      = none := by
  with_unfolding_all rfl

/-- C7, amended: the run invokes archive extraction first and only after a
successful extraction creates/clears the output artifact and writes the
two-line header; consequently, when extraction fails, the output artifact
retains its prior state, and on a successful extraction the final output
starts with the header block. -/
theorem C7_amended (msg inputName timestamp : String) (out0 : Option (List OutputLine)) :
    (convert_tar_to_fasta (Archive.corrupt msg) inputName timestamp out0).output = out0
    ∧ ∀ files : List ExtractedFile, ∃ tail,
      (convert_tar_to_fasta (Archive.valid files) inputName timestamp out0).output
        = some (headerLines inputName timestamp ++ tail) := by
  constructor
  · rfl
  · intro files
    rw [convert_valid_output]
    exact processEntries_output files _ (headerLines inputName timestamp) rfl

/-- C8, counterexample: two entries with the same gzipped-FASTA content
whose paths differ only in suffix case are processed differently — the
lower-case `.fasta.gz` entry is decompressed and its record written (the
run succeeds), while the upper-case `.FASTA.GZ` entry is classified
assembled-sequence but opened without decompression, its plain-text parse
fails, and the whole run aborts. -/
theorem C8_counterexample :
    (convert_tar_to_fasta (Archive.valid [⟨"reads.fasta.gz", true, gzFastaContent⟩])
        "in.tar.gz" "ts" none).result = Except.ok ()
    ∧ (convert_tar_to_fasta (Archive.valid [⟨"reads.fasta.gz", true, gzFastaContent⟩])
        "in.tar.gz" "ts" none).totalSequences = 1
    ∧ (convert_tar_to_fasta (Archive.valid [⟨"READS.FASTA.GZ", true, gzFastaContent⟩])
        "in.tar.gz" "ts" none).result = Except.error (PyErr.unboundLocalError "shutil") := by
  refine ⟨?_, ?_, ?_⟩ <;> with_unfolding_all rfl

theorem process_generic_congr (p q : String) (b : Bool) (c : FileContent)
    (out : List OutputLine) :
    process_generic_sequences ⟨p, b, c⟩ out = process_generic_sequences ⟨q, b, c⟩ out := rfl

/-- C8, amended: classification is case-insensitive (it depends only on the
case-folded suffix), but the gzip-decompression checks test the
original-case `.gz` suffix; an entry's processing is determined by its
case-folded path together with the original-case `.gz` test (plus its
content and file flag), not by the case-folded suffix alone. -/
theorem C8_amended :
    (∀ p, classify (pyLower p) = classify p)
    ∧ ∀ (st : BodyState) (p q : String) (b : Bool) (c : FileContent),
      pyLower p = pyLower q → pyEndsWith p ".gz" = pyEndsWith q ".gz" →
      processEntry ⟨p, b, c⟩ st = processEntry ⟨q, b, c⟩ st := by
  refine ⟨classify_lower, ?_⟩
  intro st p q b c hl hgz
  have hcls : classify p = classify q := by
    rw [← classify_lower p, hl, classify_lower q]
  have hfq := process_fastq_congr p q b c (st.output.getD []) 20 hgz
  have hgen := process_generic_congr p q b c (st.output.getD [])
  simp only [processEntry]
  rw [hcls, hgz, hfq, hgen]

/-- Witness for C8_amended: `ENTRY.FQ` and `entry.fq` case-fold to the same
path and agree on the (false) `.gz` test, so they are processed
identically. -/
theorem C8_amended_witness :
    processEntry ⟨"ENTRY.FQ", true, goodFastqContent⟩ ⟨some [], true, false, 0, []⟩
      = processEntry ⟨"entry.fq", true, goodFastqContent⟩ ⟨some [], true, false, 0, []⟩ :=
  C8_amended.2 ⟨some [], true, false, 0, []⟩ "ENTRY.FQ" "entry.fq" true goodFastqContent
    (by rfl) (by rfl)

/-- C9, counterexample: on the ten-record archive at the default threshold
the run succeeds, but the orchestrator's only run-level counter
(`total_sequences`) is never incremented for reads-with-quality entries —
it ends at 0, not 6, and no statistics object is returned to the caller,
refuting the claimed orchestrator-aggregated, caller-readable stats. -/
theorem C9_counterexample :
    (convert_tar_to_fasta archiveC9 "in.tar.gz" "ts" none).result = Except.ok ()
    ∧ (convert_tar_to_fasta archiveC9 "in.tar.gz" "ts" none).totalSequences = 0 := by
  refine ⟨?_, ?_⟩ <;> with_unfolding_all rfl

/-- C9, amended: on an archive with one reads-with-quality entry of ten
records (six of average quality at least 20, four below), the entry-local
counters of the FASTQ processor report written = 6 and filtered = 4, the
run succeeds, the output artifact holds exactly 6 records, and the final
verification count over the output is 6 — but these counters are only
logged, never aggregated by the orchestrator nor returned to the caller. -/
theorem C9_amended :
    (process_fastq_to_fasta ⟨"reads.fastq", true, fastqTenContent⟩ [] 20).map
        (fun x => (x.2.written, x.2.filtered, recordCount x.1)) = Except.ok (6, 4, 6)
    ∧ (convert_tar_to_fasta archiveC9 "in.tar.gz" "ts" none).result = Except.ok ()
    ∧ recordCount ((convert_tar_to_fasta archiveC9 "in.tar.gz" "ts" none).output.getD []) = 6
    ∧ (convert_tar_to_fasta archiveC9 "in.tar.gz" "ts" none).seqCount = some 6 := by
  refine ⟨?_, ?_, ?_, ?_⟩ <;> with_unfolding_all rfl

/-- C10: every exception of a candidate trial parse is swallowed by the
per-candidate handler, so the prober always returns normally (its own error
path is unreachable through parse failures); content unparsable under every
candidate yields the unknown-format diagnostic with zero records, and a
generic/curated entry with such content leaves the run's state intact —
the entry never aborts the run. -/
theorem C10_prober (f : ExtractedFile) (out : List OutputLine) (st : BodyState) :
    (∃ res, process_generic_sequences f out = Except.ok res)
    ∧ ((∀ g ∈ formats_to_try, trialYieldsNothing f.content g) →
      process_generic_sequences f out = Except.ok (out, 0, [Diag.unknownFormat]))
    ∧ ((classify f.path = Category.genbankRec ∨ classify f.path = Category.textFile) →
      f.isFile = true →
      (∀ g ∈ formats_to_try, trialYieldsNothing f.content g) →
      (processEntry f st).1 = Except.ok ()
        ∧ (processEntry f st).2.output = some (st.output.getD [])
        ∧ (processEntry f st).2.totalSequences = st.totalSequences) := by
  refine ⟨?_, fun hall => prober_all_skip f out hall, ?_⟩
  · by_cases hz : (genericLoop f.content out formats_to_try).2 = 0
    · refine ⟨((genericLoop f.content out formats_to_try).1, 0, [Diag.unknownFormat]), ?_⟩
      simp [process_generic_sequences, hz]
    · refine ⟨((genericLoop f.content out formats_to_try).1,
        (genericLoop f.content out formats_to_try).2, []), ?_⟩
      simp [process_generic_sequences, hz]
  · intro hcls hfile hall
    have hps := prober_all_skip f (st.output.getD []) hall
    rcases hcls with hc | hc <;> simp [processEntry, hfile, hc, hps]

/-- Witness for C10_prober: a `.txt` entry whose content fails under every
candidate is reported as unknown format with zero records and no
exception. -/
theorem C10_prober_witness :
    process_generic_sequences ⟨"notes.txt", true, badContent⟩ []
      = Except.ok ([], 0, [Diag.unknownFormat]) :=
  (C10_prober ⟨"notes.txt", true, badContent⟩ [] ⟨some [], true, false, 0, []⟩).2.1
    (fun _g _hg => Or.inl ⟨"bad record data", rfl⟩)

end BioEdn
